import Mathlib

/-!
Shallow embedding of the ser2tcp broadcast bridge (src/src/lib.rs, with the
module files src/src/serial.rs and src/src/tcp.rs duplicating the same
functions) and proofs about it.

The program bridges one serial byte source to many TCP clients:
  - handle_serial_port (lib.rs:174-195 / serial.rs:91-112): reads into a
    1024-byte buffer and sends buf[..n].to_vec() over an mpsc channel;
  - run (lib.rs:56-89): the orchestrator; for each chunk from the reader it
    locks the registry (an Arc<Mutex<Vec<Sender<Vec<u8>>>>>) and runs
    tcp_write_senders.retain_mut(|tx| tx.send(buf.clone()).is_ok());
  - handle_tcp_listener (lib.rs:197-232 / tcp.rs:16-54): binds, accepts,
    pushes a per-client sender into the registry under lock and spawns
    handle_tcp_stream;
  - handle_tcp_stream (lib.rs:234-248 / tcp.rs:57-71): writes each received
    chunk to the socket with write_all, breaking on the first error.

Machine bytes are modelled as Nat (only their identity matters here),
a chunk as a list of bytes, and the nondeterministic environment (read
outcomes, lock outcomes, receiver liveness, accept outcomes, write
outcomes) as explicit inputs to the step functions.
-/

namespace Ser2Tcp

/-- A chunk: the immutable byte vector produced by one serial read
(`buf[..n].to_vec()` in handle_serial_port). -/
abbrev Chunk := List Nat

/-! ## Serial reader task (handle_serial_port, lib.rs:174-195) -/

/-- Error kinds that `port.read` can return; the reader loop only
distinguishes `TimedOut` from everything else (lib.rs:188-192). -/
inductive ErrKind
  | timedOut
  | brokenPipe
  | otherErr
deriving DecidableEq, Repr

/-- Outcome of one `port.read(&mut buf)` call: either `Ok(n)` having written
the `n` read bytes `data` into the front of the buffer, or `Err(e)` of some
kind. -/
inductive ReadResult
  | ok (data : List Nat)
  | err (k : ErrKind)
deriving DecidableEq, Repr

/-- The fixed read-buffer size: `let mut buf = [0; 1024]` (lib.rs:176). -/
def bufSize : Nat := 1024

/-- The zero-initialised buffer after a read that placed `data` at its
front (the Read contract: the first n bytes are the data, the rest is the
prior contents, here zeros). -/
def readBuf (data : List Nat) : List Nat :=
  data ++ List.replicate (bufSize - data.length) 0

/-- The vector the reader builds from a successful read of n = data.length
bytes: `buf[..n].to_vec()` (lib.rs:179). -/
def chunkOfRead (data : List Nat) : Chunk :=
  (readBuf data).take data.length

/-- Result of one iteration of the reader loop: a chunk was sent and the
loop continues, the iteration was a no-op (timeout) and the loop continues,
or the loop breaks. -/
inductive SerialStep
  | published (c : Chunk)
  | skipped
  | stopped
deriving DecidableEq, Repr

/-- One iteration of the loop in handle_serial_port (lib.rs:175-194):
on Ok(n) build buf[..n].to_vec() and send it (break if the channel is
closed, i.e. the receiver is gone); on Err(TimedOut) do nothing; on any
other Err break. -/
def handle_serial_port_iter (r : ReadResult) (txAlive : Bool) : SerialStep :=
  match r with
  | .ok data => if txAlive then .published (chunkOfRead data) else .stopped
  | .err k => if k = ErrKind.timedOut then .skipped else .stopped

/-- The chunks the reader publishes over a whole trace of read outcomes,
while the orchestrator holds the receiver (txAlive = true): timeouts
publish nothing and continue, a non-timeout error ends the loop. -/
def handle_serial_port_run : List ReadResult → List Chunk
  | [] => []
  | r :: rs =>
    match handle_serial_port_iter r true with
    | .published c => c :: handle_serial_port_run rs
    | .skipped => handle_serial_port_run rs
    | .stopped => []

/-! ## The reader-to-orchestrator channel (mpsc::channel(), lib.rs:66)

std::sync::mpsc::channel() is the asynchronous, infinitely buffered
channel: send never blocks and only fails when the receiver has been
dropped. -/

/-- State of the mpsc channel created at lib.rs:66: the queued chunks and
whether the receiving side is still alive. -/
structure MpscState where
  buffer : List Chunk
  receiverAlive : Bool
deriving DecidableEq, Repr

/-- The freshly created channel: empty buffer, receiver alive. -/
def mpsc_channel_init : MpscState := ⟨[], true⟩

/-- Semantics of Sender::send on a channel from mpsc::channel(): if the
receiver is alive the value is appended to the (unbounded) buffer and the
call returns immediately; otherwise it fails with SendError. -/
def mpsc_send (st : MpscState) (v : Chunk) : Option MpscState :=
  if st.receiverAlive then some ⟨st.buffer ++ [v], st.receiverAlive⟩ else none

/-! ## Registry and fan-out loop (run, lib.rs:70-84) -/

/-- One registered client as the fan-out loop sees it: the identity of its
connection, whether its writer task still holds the channel receiver, and
the chunks queued in its channel so far. -/
structure ClientState where
  cid : Nat
  alive : Bool
  queue : List Chunk
deriving DecidableEq, Repr

/-- Sending one chunk into one client channel (`tx.send(buf.clone())`,
lib.rs:83): succeeds, appending to the FIFO queue, exactly when the
receiver is still alive; fails (returning none) when the writer task has
exited and dropped the receiver. -/
def clientSend (buf : Chunk) (c : ClientState) : Option ClientState :=
  if c.alive then some ⟨c.cid, c.alive, c.queue ++ [buf]⟩ else none

/-- One broadcast pass over the registry:
`tcp_write_senders.retain_mut(|tx| tx.send(buf.clone()).is_ok())`
(lib.rs:83) visits every sender in order and keeps exactly those whose
send succeeded. -/
def broadcast (buf : Chunk) (reg : List ClientState) : List ClientState :=
  reg.filterMap (clientSend buf)

/-- One iteration of the fan-out loop body (lib.rs:79-83): if the registry
lock is acquired, broadcast; if the lock is poisoned the `else continue`
branch leaves the registry untouched. -/
def fanout_step (lockOk : Bool) (buf : Chunk) (reg : List ClientState) :
    List ClientState :=
  if lockOk then broadcast buf reg else reg

/-- The fan-out loop over a trace of (lock outcome, chunk) pairs
(`for buf in serial_reader_rx`, lib.rs:77-84). -/
def fanout_run : List (Bool × Chunk) → List ClientState → List ClientState
  | [], reg => reg
  | (lk, b) :: rest, reg => fanout_run rest (fanout_step lk b reg)

/-- The fan-out loop when every lock acquisition succeeds. -/
def fanout_all : List Chunk → List ClientState → List ClientState
  | [], reg => reg
  | b :: bs, reg => fanout_all bs (broadcast b reg)

/-! ## What the fan-out loop actually sends per client (lib.rs:83)

The registry has type Arc<Mutex<Vec<Sender<Vec<u8>>>>> (lib.rs:70 together
with the signature of handle_tcp_listener at lib.rs:197), so the closure
passed to retain_mut computes `buf.clone()` where `buf : Vec<u8>`:
Vec::<u8>::clone allocates a fresh vector and copies every byte. An
Arc::clone, by contrast, would only bump a reference count. The value sent
is modelled with its provenance so the two are distinguishable. -/

/-- A value placed into a client channel, tagged with how it was produced:
a fresh byte-for-byte copy (Vec::<u8>::clone) or a shared reference-counted
handle (Arc::clone). -/
inductive SentValue
  | vecClone (bytes : Chunk)
  | arcClone (bytes : Chunk)
deriving DecidableEq, Repr

/-- The value the fan-out closure sends for one client: `buf.clone()` with
`buf : Vec<u8>` (lib.rs:83), i.e. a fresh copy of the bytes. -/
def perClientMessage (buf : Chunk) : SentValue := SentValue.vecClone buf

/-- Bytes copied when producing a sent value: Vec::<u8>::clone copies the
whole vector, Arc::clone copies nothing. -/
def bytesCopied : SentValue → Nat
  | .vecClone bs => bs.length
  | .arcClone _ => 0

/-- Total bytes copied by one broadcast pass: retain_mut evaluates
`buf.clone()` once for every sender it visits, dead or alive (the clone is
built before the send can fail). -/
def broadcastBytesCopied (buf : Chunk) : List ClientState → Nat
  | [] => 0
  | _ :: cs => bytesCopied (perClientMessage buf) + broadcastBytesCopied buf cs

/-! ## Client writer task (handle_tcp_stream, lib.rs:234-248) -/

/-- The chunks a writer task actually writes to its socket, given the
outcome of each write_all call in sequence (`ok i` is whether the i-th
write_all succeeds): `for buf in tcp_writer_rx` drains the FIFO queue and
breaks at the first write error (lib.rs:239-247). -/
def handle_tcp_stream_writes (ok : Nat → Bool) : Nat → List Chunk → List Chunk
  | _, [] => []
  | i, c :: rest =>
    if ok i then c :: handle_tcp_stream_writes ok (i + 1) rest else []

/-! ## Acceptor task (handle_tcp_listener, lib.rs:197-232) -/

/-- Outcome of binding the listen address (lib.rs:198-201). -/
inductive BindResult
  | bindOk
  | bindErr
deriving DecidableEq, Repr

/-- What happens in one iteration of the accept loop for one incoming
connection (lib.rs:207-222): the accept itself fails, or the accept
succeeds but the registry lock cannot be acquired, or both succeed. -/
inductive AcceptEvent
  | acceptErr
  | lockFail
  | accepted
deriving DecidableEq, Repr

/-- Diagnostic lines the listener prints with eprintln. -/
inductive LogEvent
  | listening
deriving DecidableEq, Repr

/-- Everything the listener does that the rest of the system can observe:
which connections had their sender pushed into the registry, which had a
writer task spawned, which accepted sockets were dropped (closed) without
either, and what was printed. -/
structure ListenerOutcome where
  registered : List Nat
  spawned : List Nat
  dropped : List Nat
  logs : List LogEvent
deriving DecidableEq, Repr

/-- The accept loop (lib.rs:207-222) over a trace of (connection id,
event) pairs. An accept error hits `continue` and leaves no trace
(lib.rs:208-210). On lock failure the `else continue` at lib.rs:213-215
skips the push and never reaches the spawn at lib.rs:218, so the accepted
stream is dropped at the end of the iteration. On success the sender is
pushed and a writer task is spawned for the stream. -/
def accept_loop : List (Nat × AcceptEvent) → ListenerOutcome
  | [] => ⟨[], [], [], []⟩
  | (i, ev) :: rest =>
    let o := accept_loop rest
    match ev with
    | .acceptErr => o
    | .lockFail => ⟨o.registered, o.spawned, i :: o.dropped, o.logs⟩
    | .accepted => ⟨i :: o.registered, i :: o.spawned, o.dropped, o.logs⟩

/-- handle_tcp_listener (lib.rs:197-232): on bind failure the
`else return` at lib.rs:199-201 exits at once — nothing printed, nothing
registered, no writer spawned; on success it prints the listening line and
runs the accept loop. -/
def handle_tcp_listener_run (b : BindResult) (evs : List (Nat × AcceptEvent)) :
    ListenerOutcome :=
  match b with
  | .bindErr => ⟨[], [], [], []⟩
  | .bindOk =>
    let o := accept_loop evs
    ⟨o.registered, o.spawned, o.dropped, LogEvent.listening :: o.logs⟩

/-- The fan-out registry induced by the listener: each registered
connection contributes a live sender with an initially empty channel
(lib.rs:211-216). -/
def registryOf (o : ListenerOutcome) : List ClientState :=
  o.registered.map (fun i => ⟨i, true, []⟩)

/-- A two-client registry with one dead sender, used to exercise the
pruning pass on a concrete input. -/
def regW : List ClientState := [⟨0, true, []⟩, ⟨1, false, []⟩]

/-- A two-client registry with both senders alive, used to exercise the
per-client copy cost on a concrete input. -/
def regTwo : List ClientState := [⟨0, true, []⟩, ⟨1, true, []⟩]

/-! Sanity checks on small inputs. -/

example :
    broadcast [1] [⟨0, true, []⟩, ⟨1, false, []⟩, ⟨2, true, [[9]]⟩] =
      [⟨0, true, [[1]]⟩, ⟨2, true, [[9], [1]]⟩] := by decide

example : handle_serial_port_run [.err .timedOut, .ok [3], .err .brokenPipe,
    .ok [4]] = [[3]] := by rfl

/-! ## Helper lemmas -/

lemma broadcast_nil (buf : Chunk) : broadcast buf [] = [] := rfl

lemma broadcast_cons (buf : Chunk) (c : ClientState) (cs : List ClientState) :
    broadcast buf (c :: cs) =
      if c.alive then
        (⟨c.cid, c.alive, c.queue ++ [buf]⟩ : ClientState) :: broadcast buf cs
      else broadcast buf cs := by
  by_cases h : c.alive <;> simp [broadcast, clientSend, h]

/-- Full characterization of one broadcast pass: the survivors are exactly
the clients whose receiver was alive, each with the chunk appended to its
queue, in their original order. -/
lemma broadcast_eq (buf : Chunk) :
    ∀ reg : List ClientState,
      broadcast buf reg =
        (reg.filter fun c => c.alive).map
          (fun c => ⟨c.cid, c.alive, c.queue ++ [buf]⟩)
  | [] => rfl
  | c :: cs => by
    rw [broadcast_cons]
    by_cases h : c.alive
    · simp [h, broadcast_eq buf cs]
    · simp [h, broadcast_eq buf cs]

/-- A client that stays alive keeps accumulating every broadcast chunk.
If c with live receiver is in the registry, then after fanning out the
chunk list bs (all locks acquired) the registry holds c with those chunks
appended, in order, to its queue. -/
lemma fanout_all_alive_mem :
    ∀ (bs : List Chunk) (reg : List ClientState) (c : ClientState),
      c.alive = true → c ∈ reg →
      (⟨c.cid, true, c.queue ++ bs⟩ : ClientState) ∈ fanout_all bs reg
  | [], reg, c, hal, hmem => by
    obtain ⟨cid, al, q⟩ := c
    subst hal
    simpa [fanout_all] using hmem
  | b :: bs, reg, c, hal, hmem => by
    have h1 : (⟨c.cid, c.alive, c.queue ++ [b]⟩ : ClientState) ∈ broadcast b reg := by
      rw [broadcast_eq]
      exact List.mem_map_of_mem _ (List.mem_filter.mpr ⟨hmem, by simp [hal]⟩)
    have h2 := fanout_all_alive_mem bs (broadcast b reg)
      ⟨c.cid, c.alive, c.queue ++ [b]⟩ hal h1
    simpa [fanout_all, hal, List.append_assoc] using h2

/-- The writer loop writes an initial segment of its queue: it either
drains the whole queue or stops at the first failed write_all, never
skipping, duplicating or reordering. -/
lemma writes_take (ok : Nat → Bool) :
    ∀ (i : Nat) (q : List Chunk),
      ∃ m, handle_tcp_stream_writes ok i q = q.take m
  | _, [] => ⟨0, rfl⟩
  | i, c :: rest => by
    by_cases h : ok i
    · obtain ⟨m, hm⟩ := writes_take ok (i + 1) rest
      exact ⟨m + 1, by simp [handle_tcp_stream_writes, h, hm]⟩
    · exact ⟨0, by simp [handle_tcp_stream_writes, h]⟩

/-- Broadcasting never invents clients: the connection ids after a pass
are among the ids before it. -/
lemma broadcast_cid_subset (buf : Chunk) (reg : List ClientState) :
    (broadcast buf reg).map ClientState.cid ⊆ reg.map ClientState.cid := by
  rw [broadcast_eq]
  intro i hi
  simp only [List.map_map, List.mem_map, Function.comp] at hi
  obtain ⟨c, hc, rfl⟩ := hi
  exact List.mem_map_of_mem _ (List.mem_of_mem_filter hc)

/-- The fan-out loop never invents clients either, whatever the lock
outcomes. -/
lemma fanout_run_cid_subset :
    ∀ (trace : List (Bool × Chunk)) (reg : List ClientState),
      (fanout_run trace reg).map ClientState.cid ⊆ reg.map ClientState.cid
  | [], _ => fun _ h => h
  | (lk, b) :: rest, reg => by
    intro i hi
    have h1 := fanout_run_cid_subset rest (fanout_step lk b reg) hi
    by_cases hlk : lk
    · exact broadcast_cid_subset b reg (by simpa [fanout_step, hlk] using h1)
    · simpa [fanout_step, hlk] using h1

/-- With no clients registered, the fan-out loop consumes every chunk of
its trace and the registry stays empty throughout. -/
lemma fanout_run_nil_reg :
    ∀ trace : List (Bool × Chunk), fanout_run trace [] = []
  | [] => rfl
  | (lk, b) :: rest => by
    have := fanout_run_nil_reg rest
    by_cases hlk : lk <;> simp [fanout_run, fanout_step, hlk, broadcast_nil, this]

/-- Every member of the registry after a broadcast pass is alive. -/
lemma broadcast_all_alive (buf : Chunk) (reg : List ClientState) :
    ∀ c ∈ broadcast buf reg, c.alive = true := by
  rw [broadcast_eq]
  intro c hc
  obtain ⟨d, hd, rfl⟩ := List.mem_map.mp hc
  exact (List.mem_filter.mp hd).2

/-- On a registry whose members are all alive, a broadcast pass removes
nobody. -/
lemma broadcast_length_all_alive (buf : Chunk) (reg : List ClientState)
    (h : ∀ c ∈ reg, c.alive = true) :
    (broadcast buf reg).length = reg.length := by
  have hf : reg.filter (fun c => c.alive) = reg :=
    List.filter_eq_self.mpr (fun c hc => by simpa using h c hc)
  rw [broadcast_eq, List.length_map, hf]

/-- A broadcast pass keeps exactly the alive clients. -/
lemma broadcast_length (buf : Chunk) (reg : List ClientState) :
    (broadcast buf reg).length = (reg.filter fun c => c.alive).length := by
  rw [broadcast_eq, List.length_map]

/-- The alive and the dead clients together account for the whole
registry. -/
lemma length_filter_alive_split :
    ∀ reg : List ClientState,
      (reg.filter fun c => c.alive).length
        + (reg.filter fun c => !c.alive).length = reg.length
  | [] => rfl
  | x :: xs => by
    have ih := length_filter_alive_split xs
    by_cases h : x.alive <;> simp [List.filter_cons, h] <;> omega

/-- When exactly one registered client is dead and senders are pairwise
distinct, the dead part of the registry is that one client alone. -/
lemma filter_dead_singleton (c : ClientState) :
    ∀ reg : List ClientState, reg.Nodup → c ∈ reg → c.alive = false →
      (∀ d ∈ reg, d.alive = false → d = c) →
      reg.filter (fun d => !d.alive) = [c]
  | [], _, hmem, _, _ => absurd hmem (List.not_mem_nil c)
  | x :: xs, hnd, hmem, hdead, honly => by
    have hndx := List.nodup_cons.mp hnd
    rcases List.mem_cons.mp hmem with hx | hx
    · subst hx
      have hnil : xs.filter (fun d => !d.alive) = [] := by
        rw [List.filter_eq_nil_iff]
        intro d hd hdd
        have : d = c := honly d (List.mem_cons_of_mem _ hd) (by simpa using hdd)
        exact hndx.1 (this ▸ hd)
      simp [List.filter_cons, hdead, hnil]
    · have hxalive : x.alive = true := by
        by_contra hxa
        have : x = c := honly x (List.mem_cons_self x xs) (by simpa using hxa)
        exact hndx.1 (this ▸ hx)
      have ih := filter_dead_singleton c xs hndx.2 hx hdead
        (fun d hd hdd => honly d (List.mem_cons_of_mem _ hd) hdd)
      simp [List.filter_cons, hxalive, ih]

/-- With pairwise-distinct connection ids, two registered clients with the
same id are the same client. -/
lemma cid_inj (reg : List ClientState)
    (hnodup : (reg.map ClientState.cid).Nodup) :
    ∀ c ∈ reg, ∀ d ∈ reg, c.cid = d.cid → c = d := by
  intro c hc d hd h
  exact List.inj_on_of_nodup_map hnodup hc hd h

/-- A writer whose every write_all succeeds drains its whole queue. -/
lemma writes_all_ok : ∀ (i : Nat) (q : List Chunk),
    handle_tcp_stream_writes (fun _ => true) i q = q
  | _, [] => rfl
  | i, c :: rest => by
    simp [handle_tcp_stream_writes, writes_all_ok (i + 1) rest]

/-- The listener registers a sender exactly when it spawns a writer: the
two lists coincide on every trace. -/
lemma accept_loop_registered_eq_spawned :
    ∀ evs : List (Nat × AcceptEvent),
      (accept_loop evs).registered = (accept_loop evs).spawned
  | [] => rfl
  | (i, ev) :: rest => by
    have ih := accept_loop_registered_eq_spawned rest
    cases ev <;> simp [accept_loop, ih]

/-- The connection ids of the registry the listener induces are exactly
the registered connection ids. -/
lemma registryOf_cids (o : ListenerOutcome) :
    (registryOf o).map ClientState.cid = o.registered := by
  rw [registryOf, List.map_map]
  exact List.map_id o.registered

/-! ## Claim theorems -/

/-- C1: for every chunk the fan-out loop receives, every sender present in
the registry when the lock is acquired either has the chunk enqueued on
its channel (and survives with exactly that chunk appended) or is removed
in the same pass; every sender still registered afterwards received the
chunk in full. -/
theorem fanout_completeness (buf : Chunk) (reg : List ClientState) :
    (∀ c ∈ reg, c.alive = true →
        (⟨c.cid, c.alive, c.queue ++ [buf]⟩ : ClientState) ∈ broadcast buf reg)
    ∧ (∀ c ∈ reg, c.alive = false → c ∉ broadcast buf reg)
    ∧ (∀ c ∈ broadcast buf reg,
        ∃ d ∈ reg, d.alive = true ∧ c = ⟨d.cid, d.alive, d.queue ++ [buf]⟩) := by
  refine ⟨?_, ?_, ?_⟩
  · intro c hc hal
    rw [broadcast_eq]
    exact List.mem_map_of_mem _ (List.mem_filter.mpr ⟨hc, by simp [hal]⟩)
  · intro c _ hdead hmem
    have := broadcast_all_alive buf reg c hmem
    rw [this] at hdead
    exact Bool.true_eq_false.mp hdead
  · intro c hc
    rw [broadcast_eq] at hc
    obtain ⟨d, hd, rfl⟩ := List.mem_map.mp hc
    have hdf := List.mem_filter.mp hd
    exact ⟨d, hdf.1, by simpa using hdf.2, rfl⟩

/-- C1 witness: the completeness property instantiated on a concrete
registry holding one live and one dead client. -/
theorem fanout_completeness_witness :
    (∀ c ∈ regW, c.alive = true →
        (⟨c.cid, c.alive, c.queue ++ [[7]]⟩ : ClientState) ∈ broadcast [7] regW)
    ∧ (∀ c ∈ regW, c.alive = false → c ∉ broadcast [7] regW)
    ∧ (∀ c ∈ broadcast [7] regW,
        ∃ d ∈ regW, d.alive = true ∧ c = ⟨d.cid, d.alive, d.queue ++ [[7]]⟩) :=
  fanout_completeness [7] regW

/-- C2: a client that registers after the first k chunks accumulates, in
its FIFO channel, exactly the chunks broadcast after its registration and
in production order; its writer then writes an initial segment of that
queue (everything up to the first failed write_all, the whole queue when
none fails), and what it writes is a subsequence of the full production
sequence — no duplication, no reordering. -/
theorem per_client_ordering (cs : List Chunk) (k : Nat)
    (reg0 : List ClientState) (i : Nat) (ok : Nat → Bool) :
    (⟨i, true, cs.drop k⟩ : ClientState)
      ∈ fanout_all (cs.drop k) (reg0 ++ [⟨i, true, []⟩])
    ∧ (∃ m, handle_tcp_stream_writes ok 0 (cs.drop k) = (cs.drop k).take m
        ∧ ((cs.drop k).take m).Sublist cs)
    ∧ handle_tcp_stream_writes (fun _ => true) 0 (cs.drop k) = cs.drop k := by
  refine ⟨?_, ?_, writes_all_ok 0 (cs.drop k)⟩
  · have h := fanout_all_alive_mem (cs.drop k) (reg0 ++ [⟨i, true, []⟩])
      ⟨i, true, []⟩ rfl (List.mem_append_right _ (List.mem_singleton.mpr rfl))
    simpa using h
  · obtain ⟨m, hm⟩ := writes_take ok 0 (cs.drop k)
    exact ⟨m, hm, ((List.take_sublist _ _).trans (List.drop_sublist _ _))⟩

/-- C2 witness: the ordering property on a concrete three-chunk stream
with the client joining after the first chunk. -/
theorem per_client_ordering_witness :
    (⟨9, true, ([[1], [2], [3]] : List Chunk).drop 1⟩ : ClientState)
      ∈ fanout_all (([[1], [2], [3]] : List Chunk).drop 1)
          ([] ++ [⟨9, true, []⟩])
    ∧ (∃ m, handle_tcp_stream_writes (fun j => j = 0) 0
          (([[1], [2], [3]] : List Chunk).drop 1)
        = (([[1], [2], [3]] : List Chunk).drop 1).take m
        ∧ ((([[1], [2], [3]] : List Chunk).drop 1).take m).Sublist
            [[1], [2], [3]])
    ∧ handle_tcp_stream_writes (fun _ => true) 0
        (([[1], [2], [3]] : List Chunk).drop 1)
      = ([[1], [2], [3]] : List Chunk).drop 1 :=
  per_client_ordering [[1], [2], [3]] 1 [] 9 (fun j => j = 0)

/-- C3 counterexample: the reader loop has no n > 0 guard — a read that
returns Ok(0) makes it build buf[..0].to_vec() and publish the empty
chunk, so a published chunk of length 0 exists, contradicting the claim
that every published chunk has length strictly greater than 0 and that
reads with n = 0 are never published. -/
theorem serial_chunk_nonempty_cex :
    handle_serial_port_iter (ReadResult.ok []) true = SerialStep.published []
    ∧ ([] : Chunk).length = 0
    ∧ handle_serial_port_run [ReadResult.ok []] = [[]] :=
  ⟨rfl, rfl, rfl⟩

/-- C3 amended: a successful read of n bytes publishes exactly those n
bytes as one chunk, with 0 ≤ n ≤ 1024 (the buffer size); in particular a
read of 0 bytes publishes the empty chunk rather than being dropped. -/
theorem serial_chunk_exact (data : List Nat) (h : data.length ≤ bufSize) :
    handle_serial_port_iter (ReadResult.ok data) true
      = SerialStep.published data
    ∧ data.length ≤ bufSize := by
  refine ⟨?_, h⟩
  have hc : chunkOfRead data = data := by
    rw [chunkOfRead, readBuf, List.take_left]
  simp [handle_serial_port_iter, hc]

/-- C3 witness: the amended property at a concrete two-byte read. -/
theorem serial_chunk_exact_witness :
    ([5, 6] : List Nat).length ≤ bufSize
    ∧ (handle_serial_port_iter (ReadResult.ok [5, 6]) true
        = SerialStep.published [5, 6]
       ∧ ([5, 6] : List Nat).length ≤ bufSize) :=
  ⟨by decide, serial_chunk_exact [5, 6] (by decide)⟩

/-- C4 counterexample: the reader-to-orchestrator channel is created with
mpsc::channel(), the asynchronous infinitely buffered one — two
consecutive sends with no intervening receive both succeed immediately
and leave two chunks in flight, contradicting the claims that at most one
chunk is in flight and that the send blocks. -/
theorem reader_channel_capacity_cex :
    mpsc_send mpsc_channel_init [1] = some ⟨[[1]], true⟩
    ∧ mpsc_send ⟨[[1]], true⟩ [2] = some ⟨[[1], [2]], true⟩
    ∧ (MpscState.mk [[1], [2]] true).buffer.length = 2 :=
  ⟨rfl, rfl, rfl⟩

/-- C4 amended: the reader-to-orchestrator channel is unbounded and its
send is non-blocking — whenever the receiver is alive, a send succeeds
immediately whatever the number of chunks already in flight, appending the
chunk to the buffer; the reader can race arbitrarily far ahead of
delivery. -/
theorem reader_channel_unbounded (st : MpscState) (v : Chunk)
    (h : st.receiverAlive = true) :
    mpsc_send st v = some ⟨st.buffer ++ [v], true⟩ := by
  simp [mpsc_send, h]

/-- C4 witness: a third send on a channel already holding two chunks. -/
theorem reader_channel_unbounded_witness :
    (MpscState.mk [[1], [2]] true).receiverAlive = true
    ∧ mpsc_send ⟨[[1], [2]], true⟩ [3] = some ⟨[[1], [2], [3]], true⟩ :=
  ⟨rfl, reader_channel_unbounded ⟨[[1], [2]], true⟩ [3] rfl⟩

/-- C5: once a client's writer has exited (receiver dropped), the first
broadcast pass that finds it removes it — with pairwise-distinct ids and
that client the only dead one, the registry shrinks by exactly one — and
its id is absent from the registry ever after, so no later broadcast
touches it: removed once, never twice, never leaked, and a pass over the
pruned (all-alive) registry removes nobody further. -/
theorem dead_client_pruning (reg : List ClientState) (c : ClientState)
    (b b2 : Chunk) (trace : List (Bool × Chunk))
    (hmem : c ∈ reg) (hdead : c.alive = false)
    (hnodup : (reg.map ClientState.cid).Nodup)
    (honly : ∀ d ∈ reg, d.alive = false → d = c) :
    c.cid ∉ (broadcast b reg).map ClientState.cid
    ∧ (broadcast b reg).length + 1 = reg.length
    ∧ (broadcast b2 (broadcast b reg)).length = (broadcast b reg).length
    ∧ c.cid ∉ (fanout_run trace (broadcast b reg)).map ClientState.cid := by
  have habs : c.cid ∉ (broadcast b reg).map ClientState.cid := by
    intro hin
    rw [broadcast_eq] at hin
    rw [List.map_map] at hin
    obtain ⟨d, hd, hdc⟩ := List.mem_map.mp hin
    have hdf := List.mem_filter.mp hd
    have : d = c := cid_inj reg hnodup d hdf.1 c hmem hdc
    rw [this, hdead] at hdf
    exact Bool.false_ne_true hdf.2
  refine ⟨habs, ?_, ?_, ?_⟩
  · have h1 := broadcast_length b reg
    have h2 := length_filter_alive_split reg
    have h3 := filter_dead_singleton c reg
      (List.Nodup.of_map ClientState.cid hnodup) hmem hdead honly
    rw [h3, List.length_singleton] at h2
    omega
  · exact broadcast_length_all_alive b2 (broadcast b reg)
      (broadcast_all_alive b reg)
  · intro hin
    exact habs (fanout_run_cid_subset trace (broadcast b reg) hin)

/-- C5 witness: the pruning property on a concrete registry with one live
and one dead client. -/
theorem dead_client_pruning_witness :
    ((⟨1, false, []⟩ : ClientState) ∈ regW
      ∧ (⟨1, false, []⟩ : ClientState).alive = false
      ∧ (regW.map ClientState.cid).Nodup
      ∧ (∀ d ∈ regW, d.alive = false → d = ⟨1, false, []⟩))
    ∧ ((⟨1, false, []⟩ : ClientState).cid
          ∉ (broadcast [7] regW).map ClientState.cid
      ∧ (broadcast [7] regW).length + 1 = regW.length
      ∧ (broadcast [9] (broadcast [7] regW)).length
          = (broadcast [7] regW).length
      ∧ (⟨1, false, []⟩ : ClientState).cid
          ∉ (fanout_run [(true, [8])] (broadcast [7] regW)).map
              ClientState.cid) :=
  ⟨⟨by decide, by decide, by decide, by decide⟩,
    dead_client_pruning regW ⟨1, false, []⟩ [7] [9] [(true, [8])]
      (by decide) (by decide) (by decide) (by decide)⟩

/-- C6: a timed-out read is a no-op iteration — nothing is published, the
loop carries on with the remaining reads — and a read error stops the
reader loop exactly when it is not a timeout. -/
theorem timeout_transparency (k : ErrKind) (a : Bool)
    (rs : List ReadResult) :
    handle_serial_port_iter (ReadResult.err ErrKind.timedOut) a
      = SerialStep.skipped
    ∧ (handle_serial_port_iter (ReadResult.err k) a = SerialStep.stopped
        ↔ k ≠ ErrKind.timedOut)
    ∧ handle_serial_port_run (ReadResult.err ErrKind.timedOut :: rs)
        = handle_serial_port_run rs := by
  refine ⟨rfl, ?_, rfl⟩
  cases k <;> simp [handle_serial_port_iter]

/-- C6 witness: timeout transparency at a concrete non-timeout error kind
and a concrete remaining trace. -/
theorem timeout_transparency_witness :
    handle_serial_port_iter (ReadResult.err ErrKind.timedOut) true
      = SerialStep.skipped
    ∧ (handle_serial_port_iter (ReadResult.err ErrKind.brokenPipe) true
        = SerialStep.stopped ↔ ErrKind.brokenPipe ≠ ErrKind.timedOut)
    ∧ handle_serial_port_run
        (ReadResult.err ErrKind.timedOut :: [ReadResult.ok [4]])
      = handle_serial_port_run [ReadResult.ok [4]] :=
  timeout_transparency ErrKind.brokenPipe true [ReadResult.ok [4]]

/-- C7: when the registry lock is poisoned the fan-out loop's else-branch
skips that chunk entirely — the registry, every queue included, is exactly
what it was — and the loop goes on to process the rest of the chunk
trace. -/
theorem poisoned_lock_skip (b : Chunk) (rest : List (Bool × Chunk))
    (reg : List ClientState) :
    fanout_step false b reg = reg
    ∧ fanout_run ((false, b) :: rest) reg = fanout_run rest reg :=
  ⟨rfl, rfl⟩

/-- C7 witness: the poisoned-lock skip at a concrete registry and trace. -/
theorem poisoned_lock_skip_witness :
    fanout_step false [3] regTwo = regTwo
    ∧ fanout_run ((false, [3]) :: [(true, [4])]) regTwo
        = fanout_run [(true, [4])] regTwo :=
  poisoned_lock_skip [3] [(true, [4])] regTwo

/-- C8 counterexample: on a bind failure the listener hits the bare
`else return` and prints nothing — its log is empty — so the failure is
not reported, contradicting the part of the claim that says it is
(everything else about the claim holds, see the amended theorem). -/
theorem bind_failure_report_cex :
    (handle_tcp_listener_run BindResult.bindErr
        [(0, AcceptEvent.accepted)]).logs = []
    ∧ handle_tcp_listener_run BindResult.bindErr [(0, AcceptEvent.accepted)]
        = ⟨[], [], [], []⟩ :=
  ⟨rfl, rfl⟩

/-- C8 amended: a listener bind failure silently terminates only the
network side — the acceptor returns at once without printing anything, no
client is ever registered or spawned — while the fan-out loop, its
registry never augmented, keeps consuming every chunk of its trace, and
the reader is untouched. -/
theorem bind_failure_silent (evs : List (Nat × AcceptEvent))
    (trace : List (Bool × Chunk)) :
    handle_tcp_listener_run BindResult.bindErr evs = ⟨[], [], [], []⟩
    ∧ registryOf (handle_tcp_listener_run BindResult.bindErr evs) = []
    ∧ fanout_run trace
        (registryOf (handle_tcp_listener_run BindResult.bindErr evs)) = [] := by
  refine ⟨rfl, rfl, ?_⟩
  exact fanout_run_nil_reg trace

/-- C8 witness: the silent bind failure on a concrete accept trace and
chunk trace. -/
theorem bind_failure_silent_witness :
    handle_tcp_listener_run BindResult.bindErr
        [(3, AcceptEvent.accepted)] = ⟨[], [], [], []⟩
    ∧ registryOf (handle_tcp_listener_run BindResult.bindErr
        [(3, AcceptEvent.accepted)]) = []
    ∧ fanout_run [(true, [1]), (false, [2])]
        (registryOf (handle_tcp_listener_run BindResult.bindErr
          [(3, AcceptEvent.accepted)])) = [] :=
  bind_failure_silent [(3, AcceptEvent.accepted)] [(true, [1]), (false, [2])]

/-- C9 counterexample: the registry channels carry Vec of u8 and the
fan-out closure sends buf.clone(), a fresh byte-for-byte copy, not an Arc
handle; broadcasting one three-byte chunk to two clients copies six bytes,
contradicting the claim that a shared reference-counted handle is enqueued
and no O(N) copying of the contents occurs. -/
theorem shared_chunk_handle_cex :
    perClientMessage [1, 2, 3] = SentValue.vecClone [1, 2, 3]
    ∧ SentValue.vecClone [1, 2, 3] ≠ SentValue.arcClone [1, 2, 3]
    ∧ broadcastBytesCopied [1, 2, 3] regTwo = 6
    ∧ (6 : Nat) ≠ 0 := by
  refine ⟨rfl, by decide, by decide, by decide⟩

/-- C9 amended: during fan-out each visited sender is handed a fresh clone
of the chunk's byte vector (Vec::clone of buf : Vec of u8), so
broadcasting one chunk of length L over a registry of N senders copies
exactly N * L bytes — per-client copying, not a shared handle. -/
theorem broadcast_copies_per_client (buf : Chunk) :
    ∀ reg : List ClientState,
      perClientMessage buf = SentValue.vecClone buf
      ∧ broadcastBytesCopied buf reg = reg.length * buf.length
  | [] => ⟨rfl, by simp [broadcastBytesCopied]⟩
  | c :: cs => by
    have ih := (broadcast_copies_per_client buf cs).2
    refine ⟨rfl, ?_⟩
    simp [broadcastBytesCopied, bytesCopied, perClientMessage, ih,
      Nat.succ_mul, Nat.add_comm]

/-- C10: when the registry lock cannot be acquired for a freshly accepted
connection, the acceptor's else-branch skips it whole: its sender is not
pushed, no writer task is spawned, the accepted socket is dropped, the
accept loop goes on with the remaining connections — and since the
connection never enters the registry, no fan-out pass ever enqueues data
to it. -/
theorem acceptor_lockfail_skips (i : Nat) (rest : List (Nat × AcceptEvent))
    (trace : List (Bool × Chunk))
    (h : i ∉ (accept_loop rest).registered) :
    accept_loop ((i, AcceptEvent.lockFail) :: rest)
      = ⟨(accept_loop rest).registered, (accept_loop rest).spawned,
          i :: (accept_loop rest).dropped, (accept_loop rest).logs⟩
    ∧ i ∉ (accept_loop ((i, AcceptEvent.lockFail) :: rest)).registered
    ∧ i ∉ (accept_loop ((i, AcceptEvent.lockFail) :: rest)).spawned
    ∧ i ∈ (accept_loop ((i, AcceptEvent.lockFail) :: rest)).dropped
    ∧ i ∉ (fanout_run trace
          (registryOf (accept_loop ((i, AcceptEvent.lockFail) :: rest)))).map
            ClientState.cid := by
  have hreg : (accept_loop ((i, AcceptEvent.lockFail) :: rest)).registered
      = (accept_loop rest).registered := rfl
  have hsp : (accept_loop ((i, AcceptEvent.lockFail) :: rest)).spawned
      = (accept_loop rest).spawned := rfl
  refine ⟨rfl, by rw [hreg]; exact h, ?_, ?_, ?_⟩
  · rw [hsp, ← accept_loop_registered_eq_spawned]
    exact h
  · exact List.mem_cons_self i _
  · intro hin
    have h1 := fanout_run_cid_subset trace
      (registryOf (accept_loop ((i, AcceptEvent.lockFail) :: rest))) hin
    rw [registryOf_cids, hreg] at h1
    exact h h1

/-- C10 witness: the lock-failure skip with one previously accepted
connection and one broadcast afterwards. -/
theorem acceptor_lockfail_skips_witness :
    (5 ∉ (accept_loop [(2, AcceptEvent.accepted)]).registered)
    ∧ (accept_loop ((5, AcceptEvent.lockFail) :: [(2, AcceptEvent.accepted)])
        = ⟨(accept_loop [(2, AcceptEvent.accepted)]).registered,
            (accept_loop [(2, AcceptEvent.accepted)]).spawned,
            5 :: (accept_loop [(2, AcceptEvent.accepted)]).dropped,
            (accept_loop [(2, AcceptEvent.accepted)]).logs⟩
      ∧ 5 ∉ (accept_loop ((5, AcceptEvent.lockFail)
              :: [(2, AcceptEvent.accepted)])).registered
      ∧ 5 ∉ (accept_loop ((5, AcceptEvent.lockFail)
              :: [(2, AcceptEvent.accepted)])).spawned
      ∧ 5 ∈ (accept_loop ((5, AcceptEvent.lockFail)
              :: [(2, AcceptEvent.accepted)])).dropped
      ∧ 5 ∉ (fanout_run [(true, [4])]
            (registryOf (accept_loop ((5, AcceptEvent.lockFail)
              :: [(2, AcceptEvent.accepted)])))).map ClientState.cid) :=
  ⟨by decide,
    acceptor_lockfail_skips 5 [(2, AcceptEvent.accepted)] [(true, [4])]
      (by decide)⟩

end Ser2Tcp
